import Mathlib

/-!
# Verification of the UPCentralBank backend ledger (`src/app.py`)

A shallow embedding of the Flask/Firestore virtual-currency service in
`src/app.py`, together with theorems settling the specification claims.

Modelling conventions:
* Python `float` balances and amounts are modelled as exact rationals (`ℚ`);
  the ledger logic is arithmetic-generic and none of the claims concern
  floating-point rounding.
* The Firestore `users` collection is an association list keyed by username;
  `document(k).get` is first-match lookup, `update` rewrites the first match.
* A document field that may be absent (`dict.get(field, default)` in the
  source) is an `Option` field read through `Option.getD`.
* External collaborators (Scratch comment verification, `datetime.now()`,
  `sa.get_user(u).id`, `request.remote_addr`) enter as parameters.
-/

namespace UPBank

/-! ## SHA-256 (faithful model of `hashlib.sha256(...).hexdigest()`)

32-bit machine words are `Nat` values reduced `% 2 ^ 32`. -/

/-- Reduce to a 32-bit word. -/
def w32 (n : Nat) : Nat := n % 4294967296

/-- 32-bit addition. -/
def add32 (a b : Nat) : Nat := (a + b) % 4294967296

/-- Right rotation of a 32-bit word by `n` places. -/
def rotr (n x : Nat) : Nat := w32 (x / 2 ^ n + x % 2 ^ n * 2 ^ (32 - n))

/-- Logical right shift. -/
def shr (n x : Nat) : Nat := x / 2 ^ n

/-- Bitwise complement on 32 bits. -/
def bnot32 (x : Nat) : Nat := Nat.xor x 4294967295

/-- Three-way xor. -/
def xor3 (a b c : Nat) : Nat := Nat.xor (Nat.xor a b) c

/-- The 64 SHA-256 round constants. -/
def K256 : List Nat :=
  [1116352408, 1899447441, 3049323471, 3921009573, 961987163, 1508970993,
   2453635748, 2870763221, 3624381080, 310598401, 607225278, 1426881987,
   1925078388, 2162078206, 2614888103, 3248222580, 3835390401, 4022224774,
   264347078, 604807628, 770255983, 1249150122, 1555081692, 1996064986,
   2554220882, 2821834349, 2952996808, 3210313671, 3336571891, 3584528711,
   113926993, 338241895, 666307205, 773529912, 1294757372, 1396182291,
   1695183700, 1986661051, 2177026350, 2456956037, 2730485921, 2820302411,
   3259730800, 3345764771, 3516065817, 3600352804, 4094571909, 275423344,
   430227734, 506948616, 659060556, 883997877, 958139571, 1322822218,
   1537002063, 1747873779, 1955562222, 2024104815, 2227730452, 2361852424,
   2428436474, 2756734187, 3204031479, 3329325298]

/-- The eight working variables of the SHA-256 compression function. -/
structure Hash8 where
  a : Nat
  b : Nat
  c : Nat
  d : Nat
  e : Nat
  f : Nat
  g : Nat
  h : Nat
deriving DecidableEq, Repr

/-- SHA-256 initial hash value. -/
def sha256Init : Hash8 :=
  ⟨1779033703, 3144134277, 1013904242, 2773480762,
   1359893119, 2600822924, 528734635, 1541459225⟩

/-- Extend 16 message-schedule words to 64 (`n` counts remaining extensions). -/
def extendSchedule : Nat → List Nat → List Nat
  | 0, ws => ws
  | n + 1, ws =>
      let t := ws.length
      let x15 := ws.getD (t - 15) 0
      let x2 := ws.getD (t - 2) 0
      let s0 := xor3 (rotr 7 x15) (rotr 18 x15) (shr 3 x15)
      let s1 := xor3 (rotr 17 x2) (rotr 19 x2) (shr 10 x2)
      extendSchedule n (ws ++ [add32 (add32 (ws.getD (t - 16) 0) s0) (add32 (ws.getD (t - 7) 0) s1)])

/-- One round of the compression function with round constant `k` and
schedule word `wt`. -/
def sha256Round (s : Hash8) (k wt : Nat) : Hash8 :=
  let S1 := xor3 (rotr 6 s.e) (rotr 11 s.e) (rotr 25 s.e)
  let ch := Nat.xor (Nat.land s.e s.f) (Nat.land (bnot32 s.e) s.g)
  let temp1 := add32 s.h (add32 S1 (add32 ch (add32 k wt)))
  let S0 := xor3 (rotr 2 s.a) (rotr 13 s.a) (rotr 22 s.a)
  let maj := xor3 (Nat.land s.a s.b) (Nat.land s.a s.c) (Nat.land s.b s.c)
  let temp2 := add32 S0 maj
  ⟨add32 temp1 temp2, s.a, s.b, s.c, add32 s.d temp1, s.e, s.f, s.g⟩

/-- Compress one 16-word block into the running hash value. -/
def sha256Block (s : Hash8) (block : List Nat) : Hash8 :=
  let w := extendSchedule 48 block
  let t := (K256.zip w).foldl (fun st kw => sha256Round st kw.1 kw.2) s
  ⟨add32 s.a t.a, add32 s.b t.b, add32 s.c t.c, add32 s.d t.d,
   add32 s.e t.e, add32 s.f t.f, add32 s.g t.g, add32 s.h t.h⟩

/-- Big-endian 8-byte encoding of `n` (the message bit length). -/
def lenBytes (n : Nat) : List Nat :=
  (List.range 8).map (fun i => n / 2 ^ (8 * (7 - i)) % 256)

/-- SHA-256 padding: `0x80`, zeros to 56 mod 64, then the 64-bit bit length. -/
def padMessage (msg : List Nat) : List Nat :=
  let L := msg.length
  msg ++ 128 :: List.replicate ((119 - L % 64) % 64) 0 ++ lenBytes (8 * L)

/-- Group bytes into big-endian 32-bit words. -/
def toWords : List Nat → List Nat
  | b0 :: b1 :: b2 :: b3 :: rest => (((b0 * 256 + b1) * 256 + b2) * 256 + b3) :: toWords rest
  | _ => []

/-- Split a word list into 16-word blocks; `fuel` bounds the recursion and is
instantiated with the list length. -/
def chunk16 : Nat → List Nat → List (List Nat)
  | 0, _ => []
  | _, [] => []
  | fuel + 1, ws => ws.take 16 :: chunk16 fuel (ws.drop 16)

/-- Lower-case hex digit. -/
def hexDigit (n : Nat) : Char :=
  if n < 10 then Char.ofNat (48 + n) else Char.ofNat (87 + n)

/-- Eight-character big-endian hex rendering of a 32-bit word. -/
def wordHex (n : Nat) : List Char :=
  (List.range 8).map (fun i => hexDigit (n / 16 ^ (7 - i) % 16))

/-- `hashlib.sha256(bytes).hexdigest()`: the 64-character lower-case hex
digest of a byte string. -/
def sha256hex (msg : List Nat) : String :=
  let ws := toWords (padMessage msg)
  let hh := (chunk16 ws.length ws).foldl sha256Block sha256Init
  String.mk (wordHex hh.a ++ wordHex hh.b ++ wordHex hh.c ++ wordHex hh.d ++
             wordHex hh.e ++ wordHex hh.f ++ wordHex hh.g ++ wordHex hh.h)

/-- UTF-8 encoding of one code point (Python `str.encode()` on one char). -/
def utf8Char (c : Nat) : List Nat :=
  if c < 128 then [c]
  else if c < 2048 then [192 + c / 64, 128 + c % 64]
  else if c < 65536 then [224 + c / 4096, 128 + c / 64 % 64, 128 + c % 64]
  else [240 + c / 262144, 128 + c / 4096 % 64, 128 + c / 64 % 64, 128 + c % 64]

/-- Python `s.encode()`: UTF-8 bytes of a string. -/
def strBytes (s : String) : List Nat :=
  (s.toList.map (fun c => utf8Char c.toNat)).foldr (· ++ ·) []

/-! ## `hash_IP` (`src/app.py` lines 38-43) -/

/-- `hash_IP(ip)`: `None` or the empty string give the sentinel `"unknown"`
(Python `if not ip`); otherwise the first two characters are dropped when the
address has more than two characters, and the SHA-256 hex digest of the
remainder is truncated to 10 characters. -/
def hash_IP (ip : Option String) : String :=
  match ip with
  | none => "unknown"
  | some s =>
      if s = "" then "unknown"
      else
        let cut_ip := if s.length > 2 then s.drop 2 else s
        (sha256hex (strBytes cut_ip)).take 10

/-! ## Data model

Firestore documents of the `users` collection, keyed by username.
The `balance` field is `Option ℚ` because the transfer code reads it with
`.get("balance", 0)`: a document may lack the field. -/

/-- One entry of the append-only `activity` array (`join_activity` in
`verify_user`): `type` 1 means join, `args` holds the user, `date` the
ISO timestamp. -/
structure Activity where
  type : Nat
  argsUser : String
  date : String
deriving DecidableEq, Repr

/-- A `users` collection document, with the fields `verify_user` writes. -/
structure Account where
  username : String
  uid : String
  ipHash : String
  balance : Option ℚ
  bio : String
  country : String
  joinDate : String
  activity : List Activity
  warning : Option String
deriving DecidableEq, Repr

/-- The `users` collection: an association list keyed by username. -/
abbrev Users := List (String × Account)

/-- `db.collection("users").document(k).get()`: first entry with key `k`. -/
def lookupUser (us : Users) (k : String) : Option Account :=
  match us with
  | [] => none
  | (k', a) :: rest => if k' = k then some a else lookupUser rest k

/-- `update(ref, {"balance": b})`: rewrite the balance field of the first
document keyed `k` (no-op when absent, as the callers check existence). -/
def updateBalance (us : Users) (k : String) (b : ℚ) : Users :=
  match us with
  | [] => []
  | (k', a) :: rest =>
      if k' = k then (k', { a with balance := some b }) :: rest
      else (k', a) :: updateBalance rest k b

/-- `update({"ipHash": h})` on the document keyed `k`. -/
def updateIpHash (us : Users) (k : String) (h : String) : Users :=
  match us with
  | [] => []
  | (k', a) :: rest =>
      if k' = k then (k', { a with ipHash := h }) :: rest
      else (k', a) :: updateIpHash rest k h

/-- `update({"warning": w})` on the document keyed `k`. -/
def updateWarning (us : Users) (k : String) (w : Option String) : Users :=
  match us with
  | [] => []
  | (k', a) :: rest =>
      if k' = k then (k', { a with warning := w }) :: rest
      else (k', a) :: updateWarning rest k w

/-- `document(k).delete()`: remove the document keyed `k`. -/
def removeUser (us : Users) (k : String) : Users :=
  match us with
  | [] => []
  | (k', a) :: rest => if k' = k then rest else (k', a) :: removeUser rest k

/-- The balance a transfer sees for username `k`: the stored field, a missing
field reading as 0, and 0 for a missing document. -/
def balView (us : Users) (k : String) : ℚ :=
  match lookupUser us k with
  | none => 0
  | some a => a.balance.getD 0

/-- Sum of the balances of all stored documents (missing fields read as 0). -/
def totalBalance (us : Users) : ℚ :=
  (us.map (fun p => p.2.balance.getD 0)).sum

/-- The `config/global` document; both fields may be absent
(read via `config.get(...)` in the source). -/
structure Config where
  isLocked : Option Bool
  lockMessage : Option String
deriving DecidableEq, Repr

/-- Full service state: the `users` collection and the optional
`config/global` document. -/
structure State where
  users : Users
  config : Option Config
deriving DecidableEq, Repr

/-- `get_config()` (`src/app.py` lines 45-50): the stored document if it
exists, else `{"isLocked": False, "lockMessage": ""}`. -/
def get_config (st : State) : Config :=
  match st.config with
  | some c => c
  | none => { isLocked := some false, lockMessage := some "" }

/-- Python `f"System Locked: {config.get('lockMessage')}"` renders a missing
field as `None`. -/
def renderLockMsg (m : Option String) : String :=
  match m with
  | none => "None"
  | some s => s

/-- The hardcoded administrator username. -/
def ADMIN_USERNAME : String := "-GeometricalCoder-"

/-! ## Operations (`src/app.py` routes) -/

/-- Outcome of `verify_user` (`/auth/verify`). -/
inductive AuthResult where
  | missingData
  | notVerified
  | created (data : Account)
  | loggedIn (data : Account)
deriving DecidableEq, Repr

/-- `verify_user` (`src/app.py` lines 54-113) after the external Scratch
comment check, whose boolean outcome is the parameter `verified`; `code` is
the frontend code, `remote_addr` the request's address, `uid` the external
`sa.get_user(username).id`, and `now` the `datetime.now().isoformat()`
timestamp. A new account gets balance 1000.0, a single join activity entry
and `ipHash = hash_IP remote_addr`; an existing account gets only its
`ipHash` updated (and the pre-update snapshot is returned). -/
def verify_user (st : State) (username code : String) (verified : Bool)
    (remote_addr : Option String) (uid now : String) : AuthResult × State :=
  if username = "" ∨ code = "" then (.missingData, st)
  else if ¬ verified then (.notVerified, st)
  else
    match lookupUser st.users username with
    | none =>
        let join_activity : Activity := { type := 1, argsUser := username, date := now }
        let new_user_data : Account :=
          { username := username
            uid := uid
            ipHash := hash_IP remote_addr
            balance := some 1000
            bio := "New to UP Currency!"
            country := "Unknown"
            joinDate := now
            activity := [join_activity]
            warning := none }
        (.created new_user_data, { st with users := (username, new_user_data) :: st.users })
    | some doc =>
        (.loggedIn doc, { st with users := updateIpHash st.users username (hash_IP remote_addr) })

/-- `handle_transfer` (`src/app.py` lines 166-190): the transactional body.
Reads both snapshots, errors mirror the raised exception messages; on success
the sender's balance is set to `current_balance - amount` and the
recipient's to its old snapshot value plus `amount`. -/
def handle_transfer (us : Users) (sender_id recipient_id : String) (amount : ℚ) :
    Except String (ℚ × Users) :=
  match lookupUser us sender_id with
  | none => .error "Sender does not exist"
  | some sender_data =>
      match lookupUser us recipient_id with
      | none => .error "Recipient does not exist"
      | some recipient_data =>
          let current_balance := sender_data.balance.getD 0
          if current_balance < amount then .error "Insufficient funds"
          else
            let us1 := updateBalance us sender_id (current_balance - amount)
            let us2 := updateBalance us1 recipient_id (recipient_data.balance.getD 0 + amount)
            .ok (current_balance - amount, us2)

/-- Outcome of `send_currency` (`/transaction/send`). -/
inductive SendResult where
  | badAmount
  | selfSend
  | locked (msg : String)
  | failed (msg : String)
  | ok (new_balance : ℚ)
deriving DecidableEq, Repr

/-- `send_currency` (`src/app.py` lines 127-164) for an already-parsed
amount: validation (`amount <= 0`, self-send), the global-lock check, then
the transaction; errors leave the state unchanged. -/
def send_currency (st : State) (sender_id recipient_id : String) (amount : ℚ) :
    SendResult × State :=
  if amount ≤ 0 then (.badAmount, st)
  else if sender_id = recipient_id then (.selfSend, st)
  else
    let config := get_config st
    if config.isLocked.getD false then
      (.locked ("System Locked: " ++ renderLockMsg config.lockMessage), st)
    else
      match handle_transfer st.users sender_id recipient_id amount with
      | .error e => (.failed e, st)
      | .ok (nb, us2) => (.ok nb, { st with users := us2 })

/-- `warn_user` (`/admin/warn`): only the hardcoded administrator may set a
warning. -/
def warn_user (st : State) (admin target msg : String) : State :=
  if admin ≠ ADMIN_USERNAME then st
  else { st with users := updateWarning st.users target (some msg) }

/-- `dismiss_warning` (`/user/dismiss_warning`): sets the warning to None. -/
def dismiss_warning (st : State) (username : String) : State :=
  { st with users := updateWarning st.users username none }

/-- `delete_account` (`/user/delete`). -/
def delete_account (st : State) (username : String) : State :=
  { st with users := removeUser st.users username }

/-- Outcome of the mining operation. -/
inductive MineResult where
  | notFound
  | rejected
  | ok (reward : ℚ)
deriving DecidableEq, Repr

/-- Modelled from the spec: the MineIncome operation is absent from
`src/app.py` (the repository's second prototype revision is not under
`src/`). Per spec §4.2 MineIncome: the account must exist and the claimed
fingerprint must equal the stored `identityHash`; on a mismatch the call is
rejected with no balance change; otherwise `balance += rate * elapsedSeconds`
with `rate` the fixed constant 1, and the applied reward is returned. -/
def mine_income (st : State) (username : String) (elapsedSeconds : ℚ)
    (claimedFingerprint : String) : MineResult × State :=
  match lookupUser st.users username with
  | none => (.notFound, st)
  | some acct =>
      if claimedFingerprint ≠ acct.ipHash then (.rejected, st)
      else
        let reward := 1 * elapsedSeconds
        (.ok reward,
         { st with users := updateBalance st.users username (acct.balance.getD 0 + reward) })

/-- The committed mutating operations of the service, for stating
state invariants. -/
inductive Op where
  | register (username code : String) (verified : Bool)
      (remote_addr : Option String) (uid now : String)
  | transfer (sender recipient : String) (amount : ℚ)
  | warn (admin target msg : String)
  | dismiss (username : String)
  | delete (username : String)
deriving DecidableEq, Repr

/-- State reached after one operation (rejected operations commit nothing). -/
def applyOp (st : State) (op : Op) : State :=
  match op with
  | .register u code vf addr uid now => (verify_user st u code vf addr uid now).2
  | .transfer s r a => (send_currency st s r a).2
  | .warn admin target msg => warn_user st admin target msg
  | .dismiss u => dismiss_warning st u
  | .delete u => delete_account st u

/-- Every stored document's balance (a missing field reading as 0) is
non-negative. -/
def allNonneg (us : Users) : Prop :=
  ∀ p ∈ us, 0 ≤ p.2.balance.getD 0

instance (us : Users) : Decidable (allNonneg us) := by
  unfold allNonneg
  infer_instance

/-! ## Store lemmas -/

theorem lookupUser_mem {us : Users} {k : String} {a : Account}
    (h : lookupUser us k = some a) : (k, a) ∈ us := by
  induction us with
  | nil => simp [lookupUser] at h
  | cons p rest ih =>
      obtain ⟨k', a'⟩ := p
      by_cases hk : k' = k
      · subst hk
        simp [lookupUser] at h
        simp [h]
      · simp only [lookupUser, if_neg hk] at h
        exact List.mem_cons_of_mem _ (ih h)

theorem lookupUser_updateBalance_self {us : Users} {k : String} {a : Account} (b : ℚ)
    (h : lookupUser us k = some a) :
    lookupUser (updateBalance us k b) k = some { a with balance := some b } := by
  induction us with
  | nil => simp [lookupUser] at h
  | cons p rest ih =>
      obtain ⟨k', a'⟩ := p
      by_cases hk : k' = k
      · subst hk
        simp [lookupUser] at h
        simp [updateBalance, lookupUser, h]
      · simp only [lookupUser, if_neg hk] at h
        simp only [updateBalance, if_neg hk, lookupUser]
        exact ih h

theorem lookupUser_updateBalance_ne {us : Users} {k k' : String} (b : ℚ)
    (hne : k' ≠ k) : lookupUser (updateBalance us k b) k' = lookupUser us k' := by
  induction us with
  | nil => simp [updateBalance, lookupUser]
  | cons p rest ih =>
      obtain ⟨k0, a0⟩ := p
      have hkk : ¬(k = k') := fun hh => hne hh.symm
      by_cases hk : k0 = k
      · subst hk
        simp only [updateBalance, if_true, eq_self_iff_true, lookupUser, if_neg hkk]
      · simp only [updateBalance, if_neg hk, lookupUser]
        by_cases hk0 : k0 = k'
        · simp [hk0]
        · rw [if_neg hk0, if_neg hk0]
          exact ih

theorem lookupUser_updateIpHash_self {us : Users} {k : String} {a : Account} (hsh : String)
    (h : lookupUser us k = some a) :
    lookupUser (updateIpHash us k hsh) k = some { a with ipHash := hsh } := by
  induction us with
  | nil => simp [lookupUser] at h
  | cons p rest ih =>
      obtain ⟨k', a'⟩ := p
      by_cases hk : k' = k
      · subst hk
        simp [lookupUser] at h
        simp [updateIpHash, lookupUser, h]
      · simp only [lookupUser, if_neg hk] at h
        simp only [updateIpHash, if_neg hk, lookupUser]
        exact ih h

theorem totalBalance_updateBalance {us : Users} {k : String} {a : Account} (b : ℚ)
    (h : lookupUser us k = some a) :
    totalBalance (updateBalance us k b) = totalBalance us - a.balance.getD 0 + b := by
  induction us with
  | nil => simp [lookupUser] at h
  | cons p rest ih =>
      obtain ⟨k', a'⟩ := p
      by_cases hk : k' = k
      · subst hk
        simp [lookupUser] at h
        subst h
        simp [updateBalance, totalBalance]
        ring
      · simp only [lookupUser, if_neg hk] at h
        simp only [updateBalance, if_neg hk, totalBalance, List.map_cons, List.sum_cons]
        have := ih h
        simp only [totalBalance] at this
        rw [this]
        ring

theorem allNonneg_updateBalance {us : Users} {k : String} {b : ℚ}
    (hb : 0 ≤ b) (h : allNonneg us) : allNonneg (updateBalance us k b) := by
  induction us with
  | nil => simp [updateBalance, allNonneg]
  | cons p rest ih =>
      obtain ⟨k', a'⟩ := p
      have hrest : allNonneg rest := fun q hq => h q (List.mem_cons_of_mem _ hq)
      by_cases hk : k' = k
      · subst hk
        intro q hq
        simp only [updateBalance, if_true, eq_self_iff_true, List.mem_cons] at hq
        rcases hq with hq | hq
        · subst hq; simpa using hb
        · exact hrest q hq
      · intro q hq
        simp only [updateBalance, if_neg hk, List.mem_cons] at hq
        rcases hq with hq | hq
        · subst hq; exact h _ (List.mem_cons_self _ _)
        · exact ih hrest q hq

theorem allNonneg_updateIpHash {us : Users} {k : String} {hsh : String}
    (h : allNonneg us) : allNonneg (updateIpHash us k hsh) := by
  induction us with
  | nil => simp [updateIpHash, allNonneg]
  | cons p rest ih =>
      obtain ⟨k', a'⟩ := p
      have hrest : allNonneg rest := fun q hq => h q (List.mem_cons_of_mem _ hq)
      by_cases hk : k' = k
      · subst hk
        intro q hq
        simp only [updateIpHash, if_true, eq_self_iff_true, List.mem_cons] at hq
        rcases hq with hq | hq
        · subst hq; simpa using h _ (List.mem_cons_self _ _)
        · exact hrest q hq
      · intro q hq
        simp only [updateIpHash, if_neg hk, List.mem_cons] at hq
        rcases hq with hq | hq
        · subst hq; exact h _ (List.mem_cons_self _ _)
        · exact ih hrest q hq

theorem allNonneg_updateWarning {us : Users} {k : String} {w : Option String}
    (h : allNonneg us) : allNonneg (updateWarning us k w) := by
  induction us with
  | nil => simp [updateWarning, allNonneg]
  | cons p rest ih =>
      obtain ⟨k', a'⟩ := p
      have hrest : allNonneg rest := fun q hq => h q (List.mem_cons_of_mem _ hq)
      by_cases hk : k' = k
      · subst hk
        intro q hq
        simp only [updateWarning, if_true, eq_self_iff_true, List.mem_cons] at hq
        rcases hq with hq | hq
        · subst hq; simpa using h _ (List.mem_cons_self _ _)
        · exact hrest q hq
      · intro q hq
        simp only [updateWarning, if_neg hk, List.mem_cons] at hq
        rcases hq with hq | hq
        · subst hq; exact h _ (List.mem_cons_self _ _)
        · exact ih hrest q hq

theorem allNonneg_removeUser {us : Users} {k : String}
    (h : allNonneg us) : allNonneg (removeUser us k) := by
  induction us with
  | nil => simp [removeUser, allNonneg]
  | cons p rest ih =>
      obtain ⟨k', a'⟩ := p
      have hrest : allNonneg rest := fun q hq => h q (List.mem_cons_of_mem _ hq)
      by_cases hk : k' = k
      · subst hk
        simpa [removeUser] using hrest
      · intro q hq
        simp only [removeUser, if_neg hk, List.mem_cons] at hq
        rcases hq with hq | hq
        · subst hq; exact h _ (List.mem_cons_self _ _)
        · exact ih hrest q hq

/-! ## Characterizations of the transfer path -/

theorem handle_transfer_ok {us : Users} {s r : String} {a nb : ℚ} {us' : Users}
    (h : handle_transfer us s r a = .ok (nb, us')) :
    ∃ sd rd, lookupUser us s = some sd ∧ lookupUser us r = some rd ∧
      a ≤ sd.balance.getD 0 ∧ nb = sd.balance.getD 0 - a ∧
      us' = updateBalance (updateBalance us s (sd.balance.getD 0 - a)) r
              (rd.balance.getD 0 + a) := by
  unfold handle_transfer at h
  cases hs : lookupUser us s with
  | none => rw [hs] at h; exact absurd h (by simp)
  | some sd =>
      rw [hs] at h
      cases hr : lookupUser us r with
      | none => rw [hr] at h; exact absurd h (by simp)
      | some rd =>
          rw [hr] at h
          dsimp only at h
          by_cases hlt : sd.balance.getD 0 < a
          · rw [if_pos hlt] at h
            exact absurd h (by simp)
          · rw [if_neg hlt] at h
            simp only [Except.ok.injEq, Prod.mk.injEq] at h
            exact ⟨sd, rd, rfl, rfl, not_lt.mp hlt, h.1.symm, h.2.symm⟩

theorem send_currency_ok {st : State} {s r : String} {a nb : ℚ} {st' : State}
    (h : send_currency st s r a = (.ok nb, st')) :
    0 < a ∧ s ≠ r ∧ handle_transfer st.users s r a = .ok (nb, st'.users) ∧
      st'.config = st.config := by
  unfold send_currency at h
  by_cases ha : a ≤ 0
  · rw [if_pos ha] at h
    exact absurd h (by simp)
  · rw [if_neg ha] at h
    by_cases hsr : s = r
    · rw [if_pos hsr] at h
      exact absurd h (by simp)
    · rw [if_neg hsr] at h
      by_cases hlock : (get_config st).isLocked.getD false
      · simp only [hlock, if_true] at h
        exact absurd h (by simp)
      · simp only [hlock, if_false, Bool.false_eq_true] at h
        cases hht : handle_transfer st.users s r a with
        | error e =>
            rw [hht] at h
            exact absurd h (by simp)
        | ok p =>
            obtain ⟨nb0, us2⟩ := p
            rw [hht] at h
            simp only [Prod.mk.injEq, SendResult.ok.injEq] at h
            obtain ⟨h1, h2⟩ := h
            subst h2
            subst h1
            exact ⟨not_le.mp ha, hsr, rfl, rfl⟩

/-! ## Claim C1 -/

/-- Two-account store in which both identity hashes are the sentinel. -/
def c1Alice : Account :=
  { username := "alice", uid := "1", ipHash := "unknown", balance := some 100,
    bio := "", country := "", joinDate := "d", activity := [], warning := none }

def c1Bob : Account :=
  { username := "bob", uid := "2", ipHash := "unknown", balance := some 50,
    bio := "", country := "", joinDate := "d", activity := [], warning := none }

def c1State : State := { users := [("alice", c1Alice), ("bob", c1Bob)], config := none }

/-- C1 (code bug): the transfer path of `src/app.py` never consults the
stored identity hashes, so a transfer between two accounts whose `ipHash`
values are equal (here both the sentinel "unknown") is executed rather than
rejected as a policy violation: it returns success and both balances
change. -/
theorem c1_equal_hash_transfer_not_rejected :
    c1Alice.ipHash = c1Bob.ipHash ∧ c1Alice.ipHash = "unknown" ∧
    lookupUser c1State.users "alice" = some c1Alice ∧
    lookupUser c1State.users "bob" = some c1Bob ∧
    (send_currency c1State "alice" "bob" 5).1 = .ok 95 ∧
    balView (send_currency c1State "alice" "bob" 5).2.users "alice" = 95 ∧
    balView (send_currency c1State "alice" "bob" 5).2.users "bob" = 55 := by
  have hab : ("alice" : String) ≠ "bob" := by decide
  refine ⟨rfl, rfl, rfl, rfl, ?_, ?_, ?_⟩ <;>
    norm_num [c1State, c1Alice, c1Bob, send_currency, get_config, handle_transfer,
      lookupUser, updateBalance, balView, hab]

/-! ## Claim C2 -/

/-- C2: a successful transfer between existing accounts debits the sender by
exactly the amount, credits the recipient by exactly the amount, leaves every
other account's stored document untouched, preserves the sum of all
balances, and the returned `new_balance` is the sender's prior balance minus
the amount. -/
theorem c2_transfer_moves_amount {st : State} {s r : String} {a nb : ℚ} {st' : State}
    (h : send_currency st s r a = (.ok nb, st')) :
    balView st'.users s = balView st.users s - a ∧
    balView st'.users r = balView st.users r + a ∧
    (∀ u, u ≠ s → u ≠ r → lookupUser st'.users u = lookupUser st.users u) ∧
    totalBalance st'.users = totalBalance st.users ∧
    nb = balView st.users s - a := by
  obtain ⟨hpos, hne, hht, hcfg⟩ := send_currency_ok h
  obtain ⟨sd, rd, hs, hr, hle, hnb, hus⟩ := handle_transfer_ok hht
  have hrs : r ≠ s := fun hh => hne hh.symm
  have hbs : balView st.users s = sd.balance.getD 0 := by unfold balView; rw [hs]
  have hbr : balView st.users r = rd.balance.getD 0 := by unfold balView; rw [hr]
  have hl1 : lookupUser (updateBalance st.users s (sd.balance.getD 0 - a)) r = some rd := by
    rw [lookupUser_updateBalance_ne _ hrs]
    exact hr
  have hlookS : lookupUser st'.users s =
      some { sd with balance := some (sd.balance.getD 0 - a) } := by
    rw [hus, lookupUser_updateBalance_ne _ hne]
    exact lookupUser_updateBalance_self _ hs
  have hlookR : lookupUser st'.users r =
      some { rd with balance := some (rd.balance.getD 0 + a) } := by
    rw [hus]
    exact lookupUser_updateBalance_self _ hl1
  refine ⟨?_, ?_, ?_, ?_, ?_⟩
  · rw [hbs]
    unfold balView
    rw [hlookS]
    rfl
  · rw [hbr]
    unfold balView
    rw [hlookR]
    rfl
  · intro u hus' hur
    rw [hus, lookupUser_updateBalance_ne _ hur, lookupUser_updateBalance_ne _ hus']
  · rw [hus, totalBalance_updateBalance _ hl1, totalBalance_updateBalance _ hs]
    ring
  · rw [hnb, hbs]

/-- Scenario-2 store: Alice and Bob both at 1000, distinct fingerprints. -/
def c2Alice : Account :=
  { username := "alice", uid := "1", ipHash := "50ac9ff046", balance := some 1000,
    bio := "", country := "", joinDate := "d", activity := [], warning := none }

def c2Bob : Account :=
  { username := "bob", uid := "2", ipHash := "2e7d2c03a9", balance := some 1000,
    bio := "", country := "", joinDate := "d", activity := [], warning := none }

def c2State : State := { users := [("alice", c2Alice), ("bob", c2Bob)], config := none }

def c2After : State :=
  { users := [("alice", { c2Alice with balance := some 700 }),
              ("bob", { c2Bob with balance := some 1300 })],
    config := none }

theorem c2_witness :
    balView c2After.users "alice" = balView c2State.users "alice" - 300 ∧
    balView c2After.users "bob" = balView c2State.users "bob" + 300 ∧
    (∀ u, u ≠ "alice" → u ≠ "bob" →
      lookupUser c2After.users u = lookupUser c2State.users u) ∧
    totalBalance c2After.users = totalBalance c2State.users ∧
    (700 : ℚ) = balView c2State.users "alice" - 300 :=
  c2_transfer_moves_amount (by
    have hab : ("alice" : String) ≠ "bob" := by decide
    norm_num [c2State, c2Alice, c2Bob, c2After, send_currency, get_config,
      handle_transfer, lookupUser, updateBalance, hab])

/-! ## Claim C3 -/

/-- C3: every committed operation of the service (registration, login,
transfer in either role, warning set or clear, deletion) preserves
non-negativity of every stored balance. -/
theorem c3_nonneg_invariant (st : State) (op : Op) (h : allNonneg st.users) :
    allNonneg (applyOp st op).users := by
  cases op with
  | register u code vf addr uid now =>
      show allNonneg (verify_user st u code vf addr uid now).2.users
      unfold verify_user
      by_cases h1 : u = "" ∨ code = ""
      · rw [if_pos h1]
        exact h
      · rw [if_neg h1]
        cases vf with
        | false => simpa using h
        | true =>
            simp only [Bool.true_eq_false, not_false_iff, if_true]
            cases hlu : lookupUser st.users u with
            | none =>
                dsimp only
                intro q hq
                rcases List.mem_cons.mp hq with hq | hq
                · subst hq
                  norm_num
                · exact h q hq
            | some doc =>
                dsimp only
                exact allNonneg_updateIpHash h
  | transfer s r a =>
      show allNonneg (send_currency st s r a).2.users
      unfold send_currency
      by_cases ha : a ≤ 0
      · rw [if_pos ha]
        exact h
      · rw [if_neg ha]
        by_cases hsr : s = r
        · rw [if_pos hsr]
          exact h
        · rw [if_neg hsr]
          dsimp only
          by_cases hlock : (get_config st).isLocked.getD false = true
          · rw [if_pos hlock]
            exact h
          · rw [if_neg hlock]
            cases hht : handle_transfer st.users s r a with
            | error e => exact h
            | ok p =>
                obtain ⟨nb, us2⟩ := p
                dsimp only
                obtain ⟨sd, rd, hs, hr, hle, hnb, hus⟩ := handle_transfer_ok hht
                rw [hus]
                have hrd : 0 ≤ rd.balance.getD 0 := h _ (lookupUser_mem hr)
                have hapos : 0 < a := not_le.mp ha
                apply allNonneg_updateBalance (by linarith)
                apply allNonneg_updateBalance (sub_nonneg.mpr hle)
                exact h
  | warn admin target msg =>
      show allNonneg (warn_user st admin target msg).users
      unfold warn_user
      by_cases hadm : admin ≠ ADMIN_USERNAME
      · rw [if_pos hadm]
        exact h
      · rw [if_neg hadm]
        exact allNonneg_updateWarning h
  | dismiss u =>
      exact allNonneg_updateWarning h
  | delete u =>
      exact allNonneg_removeUser h

def c3Alice : Account :=
  { username := "alice", uid := "1", ipHash := "50ac9ff046", balance := some 1000,
    bio := "", country := "", joinDate := "d", activity := [], warning := none }

def c3Bob : Account :=
  { username := "bob", uid := "2", ipHash := "2e7d2c03a9", balance := some 1000,
    bio := "", country := "", joinDate := "d", activity := [], warning := none }

def c3State : State := { users := [("alice", c3Alice), ("bob", c3Bob)], config := none }

theorem c3_witness :
    allNonneg (applyOp c3State (Op.transfer "alice" "bob" 300)).users :=
  c3_nonneg_invariant c3State (Op.transfer "alice" "bob" 300) (by decide)

/-! ## Claim C4 -/

/-- C4 (modelled from the spec, as MineIncome is absent from `src/app.py`):
with a matching fingerprint the mining operation credits
`balance += 1 * elapsedSeconds` and returns the applied reward; with a
differing fingerprint it rejects and the whole state — in particular the
account's balance — is unchanged. -/
theorem c4_mine_income_fingerprint {st : State} {u : String} {el : ℚ} {fp : String}
    {acct : Account} (hl : lookupUser st.users u = some acct) :
    (fp = acct.ipHash →
      (mine_income st u el fp).1 = .ok (1 * el) ∧
      balView (mine_income st u el fp).2.users u = acct.balance.getD 0 + 1 * el) ∧
    (fp ≠ acct.ipHash → mine_income st u el fp = (.rejected, st)) := by
  constructor
  · intro hfp
    unfold mine_income
    rw [hl]
    dsimp only
    rw [if_neg (not_not_intro hfp)]
    refine ⟨rfl, ?_⟩
    dsimp only
    have hset := lookupUser_updateBalance_self (acct.balance.getD 0 + 1 * el) hl
    unfold balView
    rw [hset]
    rfl
  · intro hfp
    unfold mine_income
    rw [hl]
    dsimp only
    rw [if_pos hfp]

def c4Miner : Account :=
  { username := "miner", uid := "9", ipHash := "2e7d2c03a9", balance := some 1000,
    bio := "", country := "", joinDate := "d", activity := [], warning := none }

def c4State : State := { users := [("miner", c4Miner)], config := none }

theorem c4_witness :
    ((mine_income c4State "miner" 120 "2e7d2c03a9").1 = .ok (1 * 120) ∧
      balView (mine_income c4State "miner" 120 "2e7d2c03a9").2.users "miner" =
        c4Miner.balance.getD 0 + 1 * 120) ∧
    mine_income c4State "miner" 120 "deadbeef00" = (.rejected, c4State) :=
  ⟨(@c4_mine_income_fingerprint c4State "miner" 120 "2e7d2c03a9" c4Miner (by decide)).1
      (by decide),
   (@c4_mine_income_fingerprint c4State "miner" 120 "deadbeef00" c4Miner (by decide)).2
      (by decide)⟩

/-! ## Claim C5 -/

/-- Store with equal fingerprints and insufficient sender funds: every check
the code performs before the balance check passes. -/
def c5Alice : Account :=
  { username := "alice", uid := "1", ipHash := "unknown", balance := some 700,
    bio := "", country := "", joinDate := "d", activity := [], warning := none }

def c5Bob : Account :=
  { username := "bob", uid := "2", ipHash := "unknown", balance := some 50,
    bio := "", country := "", joinDate := "d", activity := [], warning := none }

def c5State : State := { users := [("alice", c5Alice), ("bob", c5Bob)], config := none }

/-- C5 counterexample: the claimed check (5) — rejection on an alt-account
fingerprint match — does not exist in the code. Here the stored fingerprints
are equal and checks (1)-(4) pass, so by the claim the first failing check
would be (5) and the error a policy violation; the code instead reports the
insufficient-funds error of its balance check. -/
theorem c5_order_counterexample :
    c5Alice.ipHash = c5Bob.ipHash ∧
    send_currency c5State "alice" "bob" 2000 = (.failed "Insufficient funds", c5State) := by
  decide

/-- C5 amended: the checks `send_currency`/`handle_transfer` actually
perform, in order, each stated with all earlier checks passing (first
failing check wins): (1) `amount > 0`, (2) `sender != recipient`,
(3) global lock, (4) sender exists then recipient exists,
(5) `sender.balance >= amount`; there is no alt-account fingerprint check,
and when every check passes the transfer succeeds whatever the stored
fingerprints are. -/
theorem c5_check_order (st : State) (s r : String) (a : ℚ) :
    (a ≤ 0 → send_currency st s r a = (.badAmount, st)) ∧
    (0 < a → s = r → send_currency st s r a = (.selfSend, st)) ∧
    (0 < a → s ≠ r → (get_config st).isLocked.getD false = true →
      send_currency st s r a =
        (.locked ("System Locked: " ++ renderLockMsg (get_config st).lockMessage), st)) ∧
    (0 < a → s ≠ r → (get_config st).isLocked.getD false = false →
      lookupUser st.users s = none →
      send_currency st s r a = (.failed "Sender does not exist", st)) ∧
    (∀ sd, 0 < a → s ≠ r → (get_config st).isLocked.getD false = false →
      lookupUser st.users s = some sd → lookupUser st.users r = none →
      send_currency st s r a = (.failed "Recipient does not exist", st)) ∧
    (∀ sd rd, 0 < a → s ≠ r → (get_config st).isLocked.getD false = false →
      lookupUser st.users s = some sd → lookupUser st.users r = some rd →
      sd.balance.getD 0 < a →
      send_currency st s r a = (.failed "Insufficient funds", st)) ∧
    (∀ sd rd, 0 < a → s ≠ r → (get_config st).isLocked.getD false = false →
      lookupUser st.users s = some sd → lookupUser st.users r = some rd →
      a ≤ sd.balance.getD 0 →
      (send_currency st s r a).1 = .ok (sd.balance.getD 0 - a)) := by
  refine ⟨?_, ?_, ?_, ?_, ?_, ?_, ?_⟩
  · intro ha
    unfold send_currency
    rw [if_pos ha]
  · intro ha hsr
    unfold send_currency
    rw [if_neg (not_le.mpr ha), if_pos hsr]
  · intro ha hsr hlock
    unfold send_currency
    rw [if_neg (not_le.mpr ha), if_neg hsr]
    dsimp only
    rw [if_pos hlock]
  · intro ha hsr hlock hs
    unfold send_currency
    rw [if_neg (not_le.mpr ha), if_neg hsr]
    dsimp only
    rw [if_neg (by rw [hlock]; exact Bool.false_ne_true)]
    unfold handle_transfer
    rw [hs]
  · intro sd ha hsr hlock hs hr
    unfold send_currency
    rw [if_neg (not_le.mpr ha), if_neg hsr]
    dsimp only
    rw [if_neg (by rw [hlock]; exact Bool.false_ne_true)]
    unfold handle_transfer
    rw [hs, hr]
  · intro sd rd ha hsr hlock hs hr hlt
    unfold send_currency
    rw [if_neg (not_le.mpr ha), if_neg hsr]
    dsimp only
    rw [if_neg (by rw [hlock]; exact Bool.false_ne_true)]
    unfold handle_transfer
    rw [hs, hr]
    dsimp only
    rw [if_pos hlt]
  · intro sd rd ha hsr hlock hs hr hle
    unfold send_currency
    rw [if_neg (not_le.mpr ha), if_neg hsr]
    dsimp only
    rw [if_neg (by rw [hlock]; exact Bool.false_ne_true)]
    unfold handle_transfer
    rw [hs, hr]
    dsimp only
    rw [if_neg (not_lt.mpr hle)]

theorem c5_witness :
    send_currency c5State "alice" "bob" 2000 = (.failed "Insufficient funds", c5State) :=
  (c5_check_order c5State "alice" "bob" 2000).2.2.2.2.2.1 c5Alice c5Bob
    (by norm_num) (by decide) (by decide) (by decide) (by decide) (by decide)

/-! ## Claim C6 -/

/-- C6: any transfer that reaches the lock check while `isLocked` is true is
rejected with a 503-style lock error carrying the configured `lockMessage`,
regardless of the accounts and balances, and the state is unchanged; when
the `config/global` document is absent the result is never the lock
rejection. -/
theorem c6_global_lock (st : State) (s r : String) (a : ℚ) :
    (∀ c msg, st.config = some c → c.isLocked = some true → c.lockMessage = some msg →
      0 < a → s ≠ r →
      send_currency st s r a = (.locked ("System Locked: " ++ msg), st)) ∧
    (st.config = none → ∀ m, (send_currency st s r a).1 ≠ .locked m) := by
  constructor
  · intro c msg hc hl hm ha hsr
    have hgc : get_config st = c := by
      unfold get_config
      rw [hc]
    unfold send_currency
    rw [if_neg (not_le.mpr ha), if_neg hsr]
    dsimp only
    rw [hgc, hl]
    dsimp only [Option.getD]
    rw [if_pos rfl, hm]
    rfl
  · intro hc m
    have hgc : get_config st = { isLocked := some false, lockMessage := some "" } := by
      unfold get_config
      rw [hc]
    unfold send_currency
    by_cases ha : a ≤ 0
    · rw [if_pos ha]
      simp
    · rw [if_neg ha]
      by_cases hsr : s = r
      · rw [if_pos hsr]
        simp
      · rw [if_neg hsr]
        dsimp only
        rw [hgc]
        dsimp only [Option.getD]
        rw [if_neg Bool.false_ne_true]
        cases handle_transfer st.users s r a with
        | error e => simp
        | ok p => obtain ⟨nb, us2⟩ := p; simp

def c6Config : Config := { isLocked := some true, lockMessage := some "maintenance" }

def c6Alice : Account :=
  { username := "alice", uid := "1", ipHash := "50ac9ff046", balance := some 1000,
    bio := "", country := "", joinDate := "d", activity := [], warning := none }

def c6Bob : Account :=
  { username := "bob", uid := "2", ipHash := "2e7d2c03a9", balance := some 1000,
    bio := "", country := "", joinDate := "d", activity := [], warning := none }

def c6State : State :=
  { users := [("alice", c6Alice), ("bob", c6Bob)], config := some c6Config }

theorem c6_witness :
    send_currency c6State "alice" "bob" 300 =
      (.locked ("System Locked: " ++ "maintenance"), c6State) :=
  (c6_global_lock c6State "alice" "bob" 300).1 c6Config "maintenance"
    rfl rfl rfl (by norm_num) (by decide)

/-! ## Claim C7 -/

/-- C7: a transfer whose sender balance (missing field reading as 0) is
strictly below the amount — all checks before the funds check passing — is
rejected with the insufficient-funds error and the state, hence both
balances, is unchanged. -/
theorem c7_insufficient_funds {st : State} {s r : String} {a : ℚ} {sd rd : Account}
    (ha : 0 < a) (hsr : s ≠ r)
    (hlock : (get_config st).isLocked.getD false = false)
    (hs : lookupUser st.users s = some sd) (hr : lookupUser st.users r = some rd)
    (hlt : sd.balance.getD 0 < a) :
    send_currency st s r a = (.failed "Insufficient funds", st) ∧
    balView (send_currency st s r a).2.users s = balView st.users s ∧
    balView (send_currency st s r a).2.users r = balView st.users r := by
  have hmain : send_currency st s r a = (.failed "Insufficient funds", st) := by
    unfold send_currency
    rw [if_neg (not_le.mpr ha), if_neg hsr]
    dsimp only
    rw [if_neg (by rw [hlock]; exact Bool.false_ne_true)]
    unfold handle_transfer
    rw [hs, hr]
    dsimp only
    rw [if_pos hlt]
  exact ⟨hmain, by rw [hmain], by rw [hmain]⟩

def c7Alice : Account :=
  { username := "alice", uid := "1", ipHash := "50ac9ff046", balance := some 700,
    bio := "", country := "", joinDate := "d", activity := [], warning := none }

def c7Bob : Account :=
  { username := "bob", uid := "2", ipHash := "2e7d2c03a9", balance := some 1300,
    bio := "", country := "", joinDate := "d", activity := [], warning := none }

def c7State : State := { users := [("alice", c7Alice), ("bob", c7Bob)], config := none }

theorem c7_witness :
    send_currency c7State "alice" "bob" 2000 = (.failed "Insufficient funds", c7State) ∧
    balView (send_currency c7State "alice" "bob" 2000).2.users "alice" =
      balView c7State.users "alice" ∧
    balView (send_currency c7State "alice" "bob" 2000).2.users "bob" =
      balView c7State.users "bob" :=
  @c7_insufficient_funds c7State "alice" "bob" 2000 c7Alice c7Bob
    (by norm_num) (by decide) (by decide) (by decide) (by decide) (by decide)

/-! ## Claim C8 -/

/-- The hex digest always renders 8 words of 8 hex characters. -/
theorem sha256hex_data_length (msg : List Nat) : (sha256hex msg).data.length = 64 := by
  unfold sha256hex
  simp [wordHex]

/-- C8 counterexample: two distinct addresses that agree after their first
two characters ("abc" and "xbc") deterministically receive the same
fingerprint, because `hash_IP` drops the first two characters before
hashing; so distinct addresses do not get distinct fingerprints even with
overwhelming probability. -/
theorem c8_hash_collision :
    hash_IP (some "abc") = hash_IP (some "xbc") ∧ "abc" ≠ "xbc" := by
  constructor
  · rfl
  · decide

/-- C8 amended: `hash_IP` never fails; an absent address — and also an empty
one — yields the sentinel "unknown"; every nonempty address gets a
deterministic 10-character digest; the two-character prefix is dropped only
when the address is longer than two characters, and any two addresses that
agree after that prefix receive identical fingerprints. -/
theorem c8_hash_ip_amended :
    hash_IP none = "unknown" ∧
    hash_IP (some "") = "unknown" ∧
    (∀ s : String, s ≠ "" → (hash_IP (some s)).length = 10) ∧
    (∀ s : String, s ≠ "" → ¬(2 < s.length) →
      hash_IP (some s) = (sha256hex (strBytes s)).take 10) ∧
    (∀ s t : String, 2 < s.length → 2 < t.length → s.drop 2 = t.drop 2 →
      hash_IP (some s) = hash_IP (some t)) := by
  refine ⟨rfl, rfl, ?_, ?_, ?_⟩
  · intro s hs
    simp only [hash_IP]
    rw [if_neg hs]
    rw [String.take_eq, String.length_mk, List.length_take, sha256hex_data_length]
    decide
  · intro s hs hlen
    simp only [hash_IP]
    rw [if_neg hs]
    rw [if_neg hlen]
  · intro s t hs2 ht2 hdrop
    have hs0 : s ≠ "" := by
      intro h
      subst h
      simp at hs2
    have ht0 : t ≠ "" := by
      intro h
      subst h
      simp at ht2
    simp only [hash_IP]
    rw [if_neg hs0, if_neg ht0, if_pos hs2, if_pos ht2, hdrop]

theorem c8_witness :
    ("1.2.3.4" : String) ≠ "" ∧ (hash_IP (some "1.2.3.4")).length = 10 :=
  ⟨by decide, c8_hash_ip_amended.2.2.1 "1.2.3.4" (by decide)⟩

/-! ## Claim C9 -/

/-- C9: after successful external verification (and nonempty username and
code), an absent account is created with balance 1000.0, exactly one join
activity entry and `ipHash = hash_IP rawAddress`; an already existing
account gets exactly its `ipHash` field replaced — balance, activity list,
join date and every other field unchanged. -/
theorem c9_register_or_login (st : State) (u code : String) (addr : Option String)
    (uid now : String) (hu : u ≠ "") (hcode : code ≠ "") :
    (lookupUser st.users u = none →
      lookupUser (verify_user st u code true addr uid now).2.users u =
        some { username := u, uid := uid, ipHash := hash_IP addr, balance := some 1000,
               bio := "New to UP Currency!", country := "Unknown", joinDate := now,
               activity := [{ type := 1, argsUser := u, date := now }],
               warning := none }) ∧
    (∀ acct, lookupUser st.users u = some acct →
      lookupUser (verify_user st u code true addr uid now).2.users u =
        some { acct with ipHash := hash_IP addr }) := by
  have hmiss : ¬(u = "" ∨ code = "") := by
    intro h
    rcases h with h | h
    · exact hu h
    · exact hcode h
  constructor
  · intro hlu
    unfold verify_user
    rw [if_neg hmiss, if_neg (not_not_intro rfl), hlu]
    dsimp only
    rw [lookupUser]
    rw [if_pos rfl]
  · intro acct hacct
    unfold verify_user
    rw [if_neg hmiss, if_neg (not_not_intro rfl), hacct]
    dsimp only
    exact lookupUser_updateIpHash_self _ hacct

def c9State : State := { users := [], config := none }

theorem c9_witness :
    lookupUser (verify_user c9State "alice" "42" true none "7" "2026-01-01").2.users
        "alice" =
      some { username := "alice", uid := "7", ipHash := hash_IP none,
             balance := some 1000, bio := "New to UP Currency!", country := "Unknown",
             joinDate := "2026-01-01",
             activity := [{ type := 1, argsUser := "alice", date := "2026-01-01" }],
             warning := none } :=
  (c9_register_or_login c9State "alice" "42" none "7" "2026-01-01"
    (by decide) (by decide)).1 rfl

/-! ## Claim C10 -/

/-- C10: an account document lacking the `balance` field is treated as
having balance 0 by the transfer: such a sender is rejected with the
insufficient-funds error for every positive amount (with both accounts
existing), and such a recipient ends a successful transfer with balance
exactly the transferred amount. -/
theorem c10_missing_balance_defaults (us : Users) (s r : String) (a : ℚ) :
    (∀ sd rd, lookupUser us s = some sd → sd.balance = none →
      lookupUser us r = some rd → 0 < a →
      handle_transfer us s r a = .error "Insufficient funds") ∧
    (∀ rd nb us2, s ≠ r → lookupUser us r = some rd → rd.balance = none →
      handle_transfer us s r a = .ok (nb, us2) →
      balView us2 r = a) := by
  constructor
  · intro sd rd hs hbal hr ha
    unfold handle_transfer
    rw [hs, hr]
    dsimp only
    rw [hbal]
    simp only [Option.getD_none]
    rw [if_pos ha]
  · intro rd nb us2 hsr hr hbal hok
    obtain ⟨sd, rd', hs, hr', hle, hnb, hus⟩ := handle_transfer_ok hok
    rw [hr] at hr'
    injection hr' with hrd
    subst hrd
    have h1 : lookupUser (updateBalance us s (sd.balance.getD 0 - a)) r = some rd := by
      rw [lookupUser_updateBalance_ne _ (fun hh => hsr hh.symm)]
      exact hr
    rw [hus]
    unfold balView
    rw [lookupUser_updateBalance_self _ h1]
    simp [hbal]

def c10NoBal : Account :=
  { username := "alice", uid := "1", ipHash := "h1", balance := none,
    bio := "", country := "", joinDate := "d", activity := [], warning := none }

def c10Bob : Account :=
  { username := "bob", uid := "2", ipHash := "h2", balance := some 100,
    bio := "", country := "", joinDate := "d", activity := [], warning := none }

def c10Users : Users := [("alice", c10NoBal), ("bob", c10Bob)]

def c10After : Users :=
  [("alice", { c10NoBal with balance := some 5 }),
   ("bob", { c10Bob with balance := some 95 })]

theorem c10_witness :
    handle_transfer c10Users "alice" "bob" 5 = .error "Insufficient funds" ∧
    balView c10After "alice" = 5 :=
  ⟨(c10_missing_balance_defaults c10Users "alice" "bob" 5).1 c10NoBal c10Bob
      rfl rfl rfl (by norm_num),
   (c10_missing_balance_defaults c10Users "bob" "alice" 5).2 c10NoBal 95 c10After
      (by decide) rfl rfl
      (by
        have hab : ("alice" : String) ≠ "bob" := by decide
        have hba : ("bob" : String) ≠ "alice" := by decide
        norm_num [c10Users, c10NoBal, c10Bob, c10After, handle_transfer, lookupUser,
          updateBalance, hab, hba])⟩

end UPBank
